import Mathlib

/-!
Verification of the natural-language specification of perceval's StackExchange
backend against a shallow embedding of `src/perceval/backends/core/stackexchange.py`.

Modelling conventions:
* Python dicts used as request payloads are association lists with unique keys;
  dict values occurring in a payload are integers, strings or None (`PVal`).
* Python datetimes are represented by their UNIX-seconds value as a rational
  number (datetimes carry microsecond precision; `datetime.timestamp()` is
  modelled exactly over ℚ).  A Python `None` datetime is `Option.none`; a
  datetime object is always truthy in Python, so only `none` is falsy.
* Fallible Python code (raising exceptions) is embedded in `Except PyError`.
* The HTTP transport is an external collaborator: it is a function from the
  page number (the only query parameter that varies during one traversal) to a
  parsed response.  `json.loads` (Python stdlib) is likewise passed in as a
  function from the raw text to an optional decoded JSON value, `none` meaning
  the text is not valid JSON.
* The generator `StackExchangeClient.get_questions` is embedded as a function
  producing the finite list of observable events (transport calls, sleeps,
  yields) of one traversal, with a fuel argument bounding the number of loop
  iterations; every claim supplies enough fuel for the traversal it describes.
-/

namespace StackExchangeSpec

/-- Python exceptions that the embedded code can raise. -/
inductive PyError where
  | keyError
  | typeError
  | jsonDecodeError
  | backendError (cause : String)
deriving DecidableEq, Repr

/-- Values stored in a request-payload dict: ints, strings, or Python None. -/
inductive PVal where
  | pvInt (i : Int)
  | pvStr (s : String)
  | pvNone
deriving DecidableEq, Repr

/-- Dict lookup on an association list: the value at the first matching key. -/
def dlookup {β : Type} (k : String) : List (String × β) → Option β
  | [] => none
  | p :: t => if p.1 = k then some p.2 else dlookup k t

/-- `Except.isOk` as a plain definition, to state success/failure of fallible code. -/
def exceptIsOk {ε α : Type} : Except ε α → Bool
  | Except.ok _ => true
  | Except.error _ => false

/-- Resource parameter names of `StackExchangeClient` (class constants). -/
def PPAGE : String := "page"

def PPAGESIZE : String := "pagesize"

def PORDER : String := "order"

def PSORT : String := "sort"

def PTAGGED : String := "tagged"

def PSITE : String := "site"

def PKEY : String := "key"

def PFILTER : String := "filter"

def PMIN : String := "min"

def PACCESSTOKEN : String := "access_token"

/-- `VQUESTIONS_FILTER`: the fixed, opaque filter capability string. -/
def VQUESTIONS_FILTER : String := "Bf*y*ByQD_upZqozgU6lXL_62USGOoV3)MFNgiHqHpmO_Y-jHR"

/-- `MAX_QUESTIONS`: default maximum number of questions per query. -/
def MAX_QUESTIONS : Int := 100

/-- Python truthiness of an optional string: `None` and `""` are falsy. -/
def strTruthy : Option String → Bool
  | none => false
  | some s => s != ""

/-- State held by a constructed `StackExchange` backend object. -/
structure StackExchangeState where
  origin : String
  site : String
  api_token : Option String
  access_token : Option String
  tagged : Option String
  max_questions : Int
deriving DecidableEq, Repr

/-- Embedding of `StackExchange.__init__`: raises `BackendError` when an
access token is supplied (truthy) while the api token is not, before any
network activity (the embedded constructor performs none); otherwise it
returns the constructed state, with `origin = site`. -/
def StackExchange_init (site : String) (tagged api_token access_token : Option String)
    (max_questions : Int) : Except PyError StackExchangeState :=
  if !strTruthy api_token && strTruthy access_token then
    Except.error (PyError.backendError "access_token is defined but api_token is not")
  else
    Except.ok ⟨site, site, api_token, access_token, tagged, max_questions⟩

/-- State held by a `StackExchangeClient`. -/
structure StackExchangeClientState where
  site : String
  tagged : Option String
  token : Option String
  access_token : Option String
  max_questions : Int
deriving DecidableEq, Repr

/-- A Python optional string as a payload dict value (`None` stays `None`). -/
def optStr : Option String → PVal
  | none => PVal.pvNone
  | some s => PVal.pvStr s

/-- Python `int()` on a real number: truncation toward zero. -/
def pyIntTrunc (q : ℚ) : Int := if 0 ≤ q then ⌊q⌋ else ⌈q⌉

/-- The dict literal first assigned to `payload` in `__build_payload`, with the
fixed default arguments `order='asc'`, `sort='activity'` inlined (no caller
overrides them). -/
def base_payload (c : StackExchangeClientState) (page : Int) : List (String × PVal) :=
  [(PPAGE, PVal.pvInt page), (PPAGESIZE, PVal.pvInt c.max_questions),
   (PORDER, PVal.pvStr "asc"), (PSORT, PVal.pvStr "activity"),
   (PTAGGED, optStr c.tagged), (PSITE, PVal.pvStr c.site),
   (PKEY, optStr c.token), (PFILTER, PVal.pvStr VQUESTIONS_FILTER)]

/-- Embedding of `StackExchangeClient.__build_payload(page, from_date)`.
`from_date` is the UNIX-seconds value of the datetime argument, `none` for a
Python `None`; `if from_date:` is truthiness, and a datetime object is always
truthy, so the `min` entry is added exactly when `from_date` is not `None`,
holding `int(from_date.timestamp())`, the truncation of its UNIX-seconds value.
`if self.access_token:` is string truthiness (`None` and `""` are falsy). -/
def build_payload (c : StackExchangeClientState) (page : Int) (from_date : Option ℚ) :
    List (String × PVal) :=
  let payload := base_payload c page
  let payload :=
    match from_date with
    | some q => payload ++ [(PMIN, PVal.pvInt (pyIntTrunc q))]
    | none => payload
  match c.access_token with
  | some tok => if tok = "" then payload else payload ++ [(PACCESSTOKEN, PVal.pvStr tok)]
  | none => payload

/-- Modelled from the spec: `DEFAULT_DATETIME` lives in `perceval/utils.py`,
which is not under `src/`.  The spec calls it the "sentinel default instant",
"a fixed epoch-like timestamp meaning no lower time bound"; it is modelled as
the UNIX epoch, whose UNIX-seconds value is 0.  Being a datetime object, it is
truthy in Python. -/
def DEFAULT_DATETIME_unix : ℚ := 0

/-- Embedding of the from-date normalization in `StackExchange.fetch`:
`if not from_date: from_date = DEFAULT_DATETIME` followed by
`datetime_to_utc(from_date)` (an external toolkit function that converts the
timezone while preserving the instant, hence the identity on the UNIX-seconds
value).  A datetime object is always truthy, so only `None` is replaced by the
sentinel. -/
def fetch_normalize_from_date : Option ℚ → ℚ
  | none => DEFAULT_DATETIME_unix
  | some q => q

/-- `dict.pop(k)` after `if k in payload:` removes the entry for `k`.  On an
association list representing a dict (keys unique) this is a key filter. -/
def pop_key (payload : List (String × PVal)) (k : String) : List (String × PVal) :=
  payload.filter (fun p => p.1 != k)

/-- One `if k in payload: payload.pop(k)` statement of `sanitize_for_archive`:
the state of the payload dict after it. -/
def sanitize_step (k : String) (payload : List (String × PVal)) : List (String × PVal) :=
  if (dlookup k payload).isSome then pop_key payload k else payload

/-- Embedding of `StackExchangeClient.sanitize_for_archive(url, headers, payload)`.
The Python code pops `key` and then `access_token` from the payload dict IN
PLACE and returns the same dict: the third component of the result is
therefore both the returned payload and the post-state of the caller's
`payload` argument. -/
def sanitize_for_archive (url : String) (headers : List (String × String))
    (payload : List (String × PVal)) :
    String × List (String × String) × List (String × PVal) :=
  (url, headers, sanitize_step PACCESSTOKEN (sanitize_step PKEY payload))

/-- Decoded JSON values, as produced by Python's `json.loads`. -/
inductive Json where
  | null
  | bool (b : Bool)
  | num (q : ℚ)
  | str (s : String)
  | arr (elems : List Json)
  | obj (fields : List (String × Json))

/-- Embedding of `StackExchange.parse_questions(raw_page)`.  The stdlib decoder
`json.loads` is the external collaborator `json_loads`, returning `none` when
the text is not valid JSON (a `JSONDecodeError`).  Subscripting the decoded
value with `'items'` raises `KeyError` when the object lacks that key and
`TypeError` when the decoded value is not an object; `yield from` of a
non-list value raises `TypeError` before yielding (iterating a decoded dict or
string would yield keys or characters; the backend's pages hold lists and that
corner is collapsed into `typeError`).  A generator either raises before its
first yield or yields the whole list: hence the `Except` of a full list. -/
def parse_questions (json_loads : String → Option Json) (raw_page : String) :
    Except PyError (List Json) :=
  match json_loads raw_page with
  | none => Except.error PyError.jsonDecodeError
  | some (Json.obj fields) =>
    match dlookup "items" fields with
    | some (Json.arr elems) => Except.ok elems
    | some _ => Except.error PyError.typeError
    | none => Except.error PyError.keyError
  | some _ => Except.error PyError.typeError

/-- Python `str()` of a decoded JSON scalar.  For an integer-valued number this
is its decimal representation, as in Python.  (`str` of a decoded list or dict
produces a Python repr that no claim touches; it is not modelled further.) -/
def pyStr : Json → String
  | Json.null => "None"
  | Json.bool b => if b then "True" else "False"
  | Json.num q => if q.den = 1 then toString q.num else toString q
  | Json.str s => s
  | Json.arr _ => "<list>"
  | Json.obj _ => "<dict>"

/-- Embedding of `StackExchange.metadata_id(item)`: `str(item['question_id'])`.
An item is the field list of one decoded question object; a missing key raises
`KeyError`. -/
def metadata_id (item : List (String × Json)) : Except PyError String :=
  match dlookup "question_id" item with
  | some v => Except.ok (pyStr v)
  | none => Except.error PyError.keyError

/-- Embedding of `StackExchange.metadata_updated_on(item)`:
`float(item['last_activity_date'])`.  `float()` of a JSON number is modelled
exactly over ℚ; `float(None)` raises `TypeError` (`float` of a numeric string,
which the API never sends for this field, is collapsed into `typeError` too). -/
def metadata_updated_on (item : List (String × Json)) : Except PyError ℚ :=
  match dlookup "last_activity_date" item with
  | some (Json.num q) => Except.ok q
  | some _ => Except.error PyError.typeError
  | none => Except.error PyError.keyError

/-- `CATEGORY_QUESTION`, the single category this backend generates. -/
def CATEGORY_QUESTION : String := "question"

/-- Embedding of `StackExchange.metadata_category(item)`. -/
def metadata_category (_item : List (String × Json)) : String :=
  CATEGORY_QUESTION

/-- The parsed view (`req.json()`) together with the raw view (`req.text`) of
one transport response, with the envelope fields `get_questions` reads.
`backoff` is `data.get('backoff', None)`. -/
structure Response where
  text : String
  has_more : Bool
  backoff : Option ℚ
  page_size : Int
  total : Int
  quota_remaining : Int
  quota_max : Int

/-- Observable events of one `get_questions` traversal: a transport call for a
page (`self.fetch(url, payload=self.__build_payload(page, from_date))`), a
`time.sleep`, and a `yield` of a raw page body. -/
inductive Event where
  | call (page : Nat)
  | sleep (secs : ℚ)
  | yieldPage (body : String)
deriving DecidableEq, Repr

/-- The sleep events produced by `if backoff := data.get('backoff', None):
time.sleep(float(backoff))`.  The walrus guard tests truthiness, so a missing
backoff and a backoff of `0` both skip the sleep. -/
def sleepEvents : Option ℚ → List Event
  | none => []
  | some b => if b = 0 then [] else [Event.sleep b]

/-- The `while questions:` loop body of `get_questions`, as an event trace.
`page`, `questions` and `d` are the loop variables (`d` is the parsed `data` of
the response that produced `questions`); `t` maps a page number to its
response; `fuel` bounds the number of iterations (each iteration consumes one
unit).  An empty `questions` (Python falsiness of `None` or `""`) exits the
loop.  The quota bookkeeping (`nquestions`, `__log_status`) only feeds the
logger and is omitted from the trace. -/
def questionsLoop (t : Nat → Response) : Nat → Nat → String → Response → List Event
  | 0, _, _, _ => []
  | fuel + 1, page, questions, d =>
    if questions = "" then []
    else
      Event.yieldPage questions ::
        (if d.has_more then
          sleepEvents d.backoff ++
            (Event.call (page + 1) ::
              questionsLoop t fuel (page + 1) (t (page + 1)).text (t (page + 1)))
        else [])

/-- Embedding of `StackExchangeClient.get_questions(from_date)` as the event
trace of one traversal: the initial fetch of page 1 followed by the loop. -/
def get_questions (t : Nat → Response) (fuel : Nat) : List Event :=
  Event.call 1 :: questionsLoop t fuel 1 (t 1).text (t 1)

/-- The pages of the transport calls in a trace, in order. -/
def callPages : List Event → List Nat
  | [] => []
  | Event.call p :: rest => p :: callPages rest
  | Event.sleep _ :: rest => callPages rest
  | Event.yieldPage _ :: rest => callPages rest

/-- The yielded raw page bodies in a trace, in order. -/
def yieldBodies : List Event → List String
  | [] => []
  | Event.yieldPage b :: rest => b :: yieldBodies rest
  | Event.call _ :: rest => yieldBodies rest
  | Event.sleep _ :: rest => yieldBodies rest

/-- Total seconds slept in a trace. -/
def sleepTotal : List Event → ℚ
  | [] => 0
  | Event.sleep b :: rest => b + sleepTotal rest
  | Event.call _ :: rest => sleepTotal rest
  | Event.yieldPage _ :: rest => sleepTotal rest

/-- The expected trace of `m` successive pages starting at page `k`, each with
a non-empty body and `has_more` true: page `k` is yielded, the backoff of its
envelope (if any) is slept, and page `k + 1` is fetched. -/
def runPages (t : Nat → Response) : Nat → Nat → List Event
  | _, 0 => []
  | k, m + 1 =>
    Event.yieldPage (t k).text ::
      (sleepEvents (t k).backoff ++ (Event.call (k + 1) :: runPages t (k + 1) m))

/-! ### Concrete sample inputs used by witnesses and counterexamples -/

/-- A live request payload carrying both credential keys (claim C1). -/
def payloadC1 : List (String × PVal) :=
  [(PKEY, PVal.pvStr "abcd"), (PACCESSTOKEN, PVal.pvStr "efgh"),
   (PSITE, PVal.pvStr "stackoverflow")]

/-- A payload carrying one credential key (claim C5). -/
def payloadC5 : List (String × PVal) :=
  [(PKEY, PVal.pvStr "abcd"), (PSITE, PVal.pvStr "stackoverflow")]

/-- A concrete client state. -/
def clientC3 : StackExchangeClientState :=
  ⟨"stackoverflow", some "python", some "abcd", none, 100⟩

/-- Envelope/body of a first page: non-empty body, more pages, backoff 2. -/
def respPage1 : Response := ⟨"page-one-body", true, some 2, 1, 2, 9, 10⟩

/-- Envelope/body of a last page: non-empty body, no more pages. -/
def respPage2 : Response := ⟨"page-two-body", false, none, 1, 2, 8, 10⟩

/-- Envelope of a response whose raw text body is empty. -/
def respEmpty : Response := ⟨"", true, none, 0, 2, 7, 10⟩

/-- A transport serving two pages: `has_more` on page 1 only. -/
def twoPages : Nat → Response := fun p => if p ≤ 1 then respPage1 else respPage2

/-- A transport whose second response has an empty raw text body. -/
def emptySecondPage : Nat → Response := fun p => if p ≤ 1 then respPage1 else respEmpty

/-- A transport whose first response already has an empty raw text body. -/
def emptyFirstPage : Nat → Response := fun _ => respEmpty

/-- A decoder that decodes every text to an object with one item (claim C6). -/
def loadsItems : String → Option Json :=
  fun _ => some (Json.obj [("items", Json.arr [Json.null])])

/-- A decoder that fails on every text (claim C6). -/
def loadsFails : String → Option Json := fun _ => none

/-- A concrete question item with an integer id and a fractional
last-activity timestamp (claims C8 and C9). -/
def itemW : List (String × Json) :=
  [("question_id", Json.num ((6 : ℤ) : ℚ)),
   ("last_activity_date", Json.num ((2915 : ℚ) / 2))]

/-!
## Theorems

Helper lemmas about `dlookup`, `pop_key` and the traversal trace come first;
each claim then gets exactly one theorem (plus, where required, a witness and
a counterexample).
-/

theorem dlookup_cons {β : Type} (k : String) (p : String × β) (t : List (String × β)) :
    dlookup k (p :: t) = if p.1 = k then some p.2 else dlookup k t := rfl

theorem dlookup_append_of_none {β : Type} (k : String) (l1 l2 : List (String × β))
    (h : dlookup k l1 = none) : dlookup k (l1 ++ l2) = dlookup k l2 := by
  induction l1 with
  | nil => rfl
  | cons p t ih =>
    by_cases hp : p.1 = k
    · simp [dlookup, hp] at h
    · simp only [List.cons_append, dlookup, hp, if_false] at h ⊢
      exact ih h

theorem dlookup_append_of_some {β : Type} (k : String) (l1 l2 : List (String × β))
    (v : β) (h : dlookup k l1 = some v) : dlookup k (l1 ++ l2) = some v := by
  induction l1 with
  | nil => simp [dlookup] at h
  | cons p t ih =>
    by_cases hp : p.1 = k
    · simp only [dlookup, hp, if_true] at h
      simp only [List.cons_append, dlookup, hp, if_true]
      exact h
    · simp only [List.cons_append, dlookup, hp, if_false] at h ⊢
      exact ih h

theorem dlookup_eq_none_iff {β : Type} (k : String) (l : List (String × β)) :
    dlookup k l = none ↔ ∀ p ∈ l, p.1 ≠ k := by
  induction l with
  | nil => simp [dlookup]
  | cons p t ih =>
    by_cases hp : p.1 = k <;> simp [dlookup, hp, ih]

theorem dlookup_pop_key_self (l : List (String × PVal)) (k : String) :
    dlookup k (pop_key l k) = none := by
  induction l with
  | nil => rfl
  | cons p t ih =>
    by_cases hp : p.1 = k
    · simpa [pop_key, List.filter_cons, hp] using ih
    · simpa [pop_key, List.filter_cons, hp, dlookup] using ih

theorem dlookup_pop_key_other (l : List (String × PVal)) (k k' : String) (h : k' ≠ k) :
    dlookup k' (pop_key l k) = dlookup k' l := by
  induction l with
  | nil => rfl
  | cons p t ih =>
    by_cases hp : p.1 = k
    · have hne : k ≠ k' := fun hk => h hk.symm
      simpa [pop_key, List.filter_cons, hp, dlookup, hne] using ih
    · by_cases hk' : p.1 = k'
      · simp [pop_key, List.filter_cons, hp, dlookup, hk', h]
      · simpa [pop_key, List.filter_cons, hp, dlookup, hk'] using ih

theorem dlookup_sanitize_step_self (k : String) (l : List (String × PVal)) :
    dlookup k (sanitize_step k l) = none := by
  unfold sanitize_step
  by_cases h : (dlookup k l).isSome
  · simp [h, dlookup_pop_key_self]
  · simp only [h, if_false]
    exact Option.not_isSome_iff_eq_none.mp h

theorem dlookup_sanitize_step_other (k k' : String) (l : List (String × PVal))
    (h : k' ≠ k) : dlookup k' (sanitize_step k l) = dlookup k' l := by
  unfold sanitize_step
  by_cases hs : (dlookup k l).isSome <;>
    simp [hs, dlookup_pop_key_other l k k' h]

/-- C5: for every url, headers and payload, `sanitize_for_archive` returns the
url and headers unchanged, and a payload that contains neither the `key` nor
the `access_token` key, whether or not those keys were present in the input. -/
theorem sanitize_for_archive_strips_credentials (url : String)
    (headers : List (String × String)) (payload : List (String × PVal)) :
    (sanitize_for_archive url headers payload).1 = url ∧
    (sanitize_for_archive url headers payload).2.1 = headers ∧
    dlookup PKEY (sanitize_for_archive url headers payload).2.2 = none ∧
    dlookup PACCESSTOKEN (sanitize_for_archive url headers payload).2.2 = none ∧
    ∀ p ∈ (sanitize_for_archive url headers payload).2.2,
      p.1 ≠ PKEY ∧ p.1 ≠ PACCESSTOKEN := by
  have hKA : PKEY ≠ PACCESSTOKEN := by decide
  have hkey : dlookup PKEY (sanitize_for_archive url headers payload).2.2 = none := by
    show dlookup PKEY (sanitize_step PACCESSTOKEN (sanitize_step PKEY payload)) = none
    rw [dlookup_sanitize_step_other _ _ _ hKA]
    exact dlookup_sanitize_step_self _ _
  have hacc : dlookup PACCESSTOKEN (sanitize_for_archive url headers payload).2.2 = none :=
    dlookup_sanitize_step_self _ _
  refine ⟨rfl, rfl, hkey, hacc, ?_⟩
  intro p hp
  exact ⟨(dlookup_eq_none_iff _ _).mp hkey p hp, (dlookup_eq_none_iff _ _).mp hacc p hp⟩

/-- C5 witness: the sanitized payload of a concrete request lacks `key`. -/
theorem sanitize_for_archive_strips_credentials_witness :
    dlookup PKEY (sanitize_for_archive "https://api.stackexchange.com" [] payloadC5).2.2 =
      none :=
  (sanitize_for_archive_strips_credentials "https://api.stackexchange.com" [] payloadC5).2.2.1

/-- C1 counterexample: the claim says the payload object passed to
`sanitize_for_archive` still contains every key-value pair afterwards,
including `key`.  The Python code pops the keys in place, so the post-state of
the caller's payload (the returned dict is the same object) has lost the
`key` entry that the input payload had. -/
theorem sanitize_for_archive_mutates_payload_cx :
    dlookup PKEY payloadC1 = some (PVal.pvStr "abcd") ∧
    dlookup PKEY
        (sanitize_for_archive "https://api.stackexchange.com" [] payloadC1).2.2 = none := by
  constructor <;> rfl

/-- C1 (amended): `sanitize_for_archive` mutates the payload dict in place:
after the call the caller's payload — the very dict returned — no longer
contains the `key` or `access_token` entries, while every other key still maps
to the value it had before. -/
theorem sanitize_for_archive_post_state (url : String)
    (headers : List (String × String)) (payload : List (String × PVal)) :
    dlookup PKEY (sanitize_for_archive url headers payload).2.2 = none ∧
    dlookup PACCESSTOKEN (sanitize_for_archive url headers payload).2.2 = none ∧
    ∀ k : String, k ≠ PKEY → k ≠ PACCESSTOKEN →
      dlookup k (sanitize_for_archive url headers payload).2.2 = dlookup k payload := by
  have hKA : PKEY ≠ PACCESSTOKEN := by decide
  refine ⟨?_, dlookup_sanitize_step_self _ _, ?_⟩
  · show dlookup PKEY (sanitize_step PACCESSTOKEN (sanitize_step PKEY payload)) = none
    rw [dlookup_sanitize_step_other _ _ _ hKA]
    exact dlookup_sanitize_step_self _ _
  · intro k hk hka
    show dlookup k (sanitize_step PACCESSTOKEN (sanitize_step PKEY payload)) = dlookup k payload
    rw [dlookup_sanitize_step_other _ _ _ hka, dlookup_sanitize_step_other _ _ _ hk]

/-- C1 witness (for the amended claim): the `site` entry of a concrete payload
survives sanitization unchanged. -/
theorem sanitize_for_archive_post_state_witness :
    dlookup PSITE
        (sanitize_for_archive "https://api.stackexchange.com" [] payloadC1).2.2 =
      dlookup PSITE payloadC1 :=
  (sanitize_for_archive_post_state "https://api.stackexchange.com" [] payloadC1).2.2
    PSITE (by decide) (by decide)

theorem dlookup_min_base (c : StackExchangeClientState) (page : Int) :
    dlookup PMIN (base_payload c page) = none := by
  simp [base_payload, dlookup, PMIN, PPAGE, PPAGESIZE, PORDER, PSORT, PTAGGED, PSITE,
    PKEY, PFILTER]

theorem dlookup_page_base (c : StackExchangeClientState) (page : Int) :
    dlookup PPAGE (base_payload c page) = some (PVal.pvInt page) := by
  simp [base_payload, dlookup, PPAGE]

theorem dlookup_min_build_payload_some (c : StackExchangeClientState) (page : Int) (q : ℚ) :
    dlookup PMIN (build_payload c page (some q)) = some (PVal.pvInt (pyIntTrunc q)) := by
  have hmid : dlookup PMIN (base_payload c page ++ [(PMIN, PVal.pvInt (pyIntTrunc q))]) =
      some (PVal.pvInt (pyIntTrunc q)) := by
    rw [dlookup_append_of_none _ _ _ (dlookup_min_base c page)]
    simp [dlookup]
  unfold build_payload
  cases hacc : c.access_token with
  | none => simpa using hmid
  | some tok =>
    by_cases ht : tok = ""
    · simpa [ht] using hmid
    · simp only [ht, if_false]
      exact dlookup_append_of_some _ _ _ _ hmid

theorem dlookup_min_build_payload_none (c : StackExchangeClientState) (page : Int) :
    dlookup PMIN (build_payload c page none) = none := by
  unfold build_payload
  cases hacc : c.access_token with
  | none => simpa using dlookup_min_base c page
  | some tok =>
    by_cases ht : tok = ""
    · simpa [ht] using dlookup_min_base c page
    · simp only [ht, if_false]
      rw [dlookup_append_of_none _ _ _ (dlookup_min_base c page)]
      simp [dlookup, PMIN, PACCESSTOKEN]

theorem dlookup_page_build_payload (c : StackExchangeClientState) (page : Int)
    (from_date : Option ℚ) :
    dlookup PPAGE (build_payload c page from_date) = some (PVal.pvInt page) := by
  have happ : ∀ l2, dlookup PPAGE (base_payload c page ++ l2) = some (PVal.pvInt page) :=
    fun l2 => dlookup_append_of_some _ _ _ _ (dlookup_page_base c page)
  unfold build_payload
  cases hfd : from_date with
  | none =>
    cases hacc : c.access_token with
    | none => simpa using dlookup_page_base c page
    | some tok =>
      by_cases ht : tok = ""
      · simpa [ht] using dlookup_page_base c page
      · simpa [ht] using happ [(PACCESSTOKEN, PVal.pvStr tok)]
  | some q =>
    cases hacc : c.access_token with
    | none => simpa using happ [(PMIN, PVal.pvInt (pyIntTrunc q))]
    | some tok =>
      by_cases ht : tok = ""
      · simpa [ht] using happ [(PMIN, PVal.pvInt (pyIntTrunc q))]
      · simp only [ht, if_false]
        exact dlookup_append_of_some _ _ _ _ (happ [(PMIN, PVal.pvInt (pyIntTrunc q))])

/-- C3 counterexample: the claim says that when the since-timestamp is unset
(the epoch/default sentinel substituted by fetch) the page-1 payload OMITS the
`min` key.  In the code `if from_date:` tests the truthiness of a datetime
object, which is always truthy — the sentinel `DEFAULT_DATETIME` included — so
the payload in fact carries `min = 0` (the epoch's UNIX seconds). -/
theorem build_payload_sentinel_includes_min_cx :
    dlookup PMIN (build_payload clientC3 1 (some (fetch_normalize_from_date none))) =
      some (PVal.pvInt 0) := by
  decide

/-- C3 (amended): the builder omits `min` only when the from-date that reaches
it is Python `None`; the orchestrator's fetch replaces an unset from-date with
the epoch sentinel datetime, which is truthy, so the page-1 payload built after
normalization always contains `min` — equal to 0 at the sentinel — and for a
concrete instant `min` is the UNIX-seconds value truncated toward zero, which
is exactly the floor for instants at or after the epoch. -/
theorem build_payload_min_spec (c : StackExchangeClientState) (page : Int) :
    dlookup PMIN (build_payload c page none) = none ∧
    dlookup PMIN (build_payload c 1 (some (fetch_normalize_from_date none))) =
      some (PVal.pvInt 0) ∧
    (∀ q : ℚ, dlookup PMIN (build_payload c 1 (some q)) =
      some (PVal.pvInt (pyIntTrunc q))) ∧
    (∀ q : ℚ, 0 ≤ q → dlookup PMIN (build_payload c 1 (some q)) =
      some (PVal.pvInt ⌊q⌋)) := by
  refine ⟨dlookup_min_build_payload_none c page, ?_, ?_, ?_⟩
  · rw [dlookup_min_build_payload_some]
    have : pyIntTrunc (fetch_normalize_from_date none) = 0 := by decide
    rw [this]
  · intro q
    exact dlookup_min_build_payload_some c 1 q
  · intro q hq
    rw [dlookup_min_build_payload_some]
    have : pyIntTrunc q = ⌊q⌋ := if_pos hq
    rw [this]

/-- C3 witness (for the amended claim): a concrete instant's `min` value is its
floored UNIX-seconds value. -/
theorem build_payload_min_spec_witness :
    dlookup PMIN (build_payload clientC3 1 (some ((3 : ℚ) / 2))) =
      some (PVal.pvInt ⌊(3 : ℚ) / 2⌋) :=
  (build_payload_min_spec clientC3 1).2.2.2 ((3 : ℚ) / 2) (by norm_num)

/-- C7: constructing the backend with a (truthy) user access token but no
(truthy) app key raises `BackendError` at construction time — the embedded
constructor performs no network activity — while a truthy app key, or the
absence of a truthy access token, makes construction succeed. -/
theorem init_access_token_requires_api_token (site : String)
    (tagged api_token access_token : Option String) (mq : Int) :
    (strTruthy api_token = false → strTruthy access_token = true →
      StackExchange_init site tagged api_token access_token mq =
        Except.error
          (PyError.backendError "access_token is defined but api_token is not")) ∧
    (strTruthy api_token = true →
      exceptIsOk (StackExchange_init site tagged api_token access_token mq) = true) ∧
    (strTruthy access_token = false →
      exceptIsOk (StackExchange_init site tagged api_token access_token mq) = true) := by
  refine ⟨fun h1 h2 => ?_, fun h1 => ?_, fun h1 => ?_⟩
  · simp [StackExchange_init, h1, h2]
  · simp [StackExchange_init, h1, exceptIsOk]
  · simp [StackExchange_init, h1, exceptIsOk]

/-- C7 witness: an access token without an app key is rejected; an app key
alone is accepted. -/
theorem init_access_token_requires_api_token_witness :
    StackExchange_init "stackoverflow" none none (some "usertok") 100 =
      Except.error
        (PyError.backendError "access_token is defined but api_token is not") :=
  (init_access_token_requires_api_token "stackoverflow" none none (some "usertok") 100).1
    rfl rfl

/-- C6: `parse_questions` yields exactly the elements of the `items` list, in
their original order, when the body decodes to an object carrying one; when
the body is not valid JSON, or the decoded object lacks the `items` field, it
raises a parse error and yields no items (the `Except` result is either the
whole list or an error — there is no partial-page output). -/
theorem parse_questions_spec (json_loads : String → Option Json) (raw_page : String)
    (fields : List (String × Json)) (elems : List Json) :
    (json_loads raw_page = some (Json.obj fields) →
      dlookup "items" fields = some (Json.arr elems) →
      parse_questions json_loads raw_page = Except.ok elems) ∧
    (json_loads raw_page = none →
      parse_questions json_loads raw_page = Except.error PyError.jsonDecodeError) ∧
    (json_loads raw_page = some (Json.obj fields) →
      dlookup "items" fields = none →
      parse_questions json_loads raw_page = Except.error PyError.keyError) := by
  refine ⟨fun h1 h2 => ?_, fun h1 => ?_, fun h1 h2 => ?_⟩
  · simp [parse_questions, h1, h2]
  · simp [parse_questions, h1]
  · simp [parse_questions, h1, h2]

/-- C6 witness: a body decoding to an object with a one-element item list
parses to exactly that element, and an undecodable body is a parse error. -/
theorem parse_questions_spec_witness :
    parse_questions loadsItems "whatever-body" = Except.ok [Json.null] ∧
    parse_questions loadsFails "whatever-body" = Except.error PyError.jsonDecodeError :=
  ⟨(parse_questions_spec loadsItems "whatever-body"
      [("items", Json.arr [Json.null])] [Json.null]).1 rfl rfl,
   (parse_questions_spec loadsFails "whatever-body" [] []).2.1 rfl⟩

/-- C8: for an item whose `last_activity_date` field holds the UNIX timestamp
value `t`, `metadata_updated_on` returns exactly `t` as the UNIX-seconds value
of the resulting UTC instant, fractional part preserved: the timestamp
round-trips unchanged. -/
theorem metadata_updated_on_roundtrip (item : List (String × Json)) (t : ℚ)
    (h : dlookup "last_activity_date" item = some (Json.num t)) :
    metadata_updated_on item = Except.ok t := by
  simp [metadata_updated_on, h]

/-- C8 witness: a fractional timestamp (1457.5) round-trips unchanged. -/
theorem metadata_updated_on_roundtrip_witness :
    metadata_updated_on itemW = Except.ok ((2915 : ℚ) / 2) :=
  metadata_updated_on_roundtrip itemW ((2915 : ℚ) / 2) rfl

/-- C9: for an item whose `question_id` field holds the integer `i`,
`metadata_id` returns the decimal string representation `str(i)`, and the
operation is deterministic: on structurally equal items it returns the same
string. -/
theorem metadata_id_spec (item item2 : List (String × Json)) (i : ℤ)
    (h : dlookup "question_id" item = some (Json.num (i : ℚ))) :
    metadata_id item = Except.ok (toString i) ∧
    (item2 = item → metadata_id item2 = metadata_id item) := by
  constructor
  · simp [metadata_id, h, pyStr, Rat.den_intCast, Rat.num_intCast]
  · intro he
    rw [he]

/-- C9 witness: a concrete item with `question_id = 6` is identified by the
decimal string of 6. -/
theorem metadata_id_spec_witness :
    metadata_id itemW = Except.ok (toString (6 : ℤ)) :=
  (metadata_id_spec itemW itemW 6 rfl).1

theorem callPages_append (a b : List Event) :
    callPages (a ++ b) = callPages a ++ callPages b := by
  induction a with
  | nil => rfl
  | cons e rest ih => cases e <;> simp [callPages, ih]

theorem yieldBodies_append (a b : List Event) :
    yieldBodies (a ++ b) = yieldBodies a ++ yieldBodies b := by
  induction a with
  | nil => rfl
  | cons e rest ih => cases e <;> simp [yieldBodies, ih]

theorem callPages_sleepEvents (b : Option ℚ) : callPages (sleepEvents b) = [] := by
  rcases b with _ | q
  · rfl
  · by_cases hq : q = 0 <;> simp [sleepEvents, hq, callPages]

theorem yieldBodies_sleepEvents (b : Option ℚ) : yieldBodies (sleepEvents b) = [] := by
  rcases b with _ | q
  · rfl
  · by_cases hq : q = 0 <;> simp [sleepEvents, hq, yieldBodies]

theorem callPages_runPages (t : Nat → Response) :
    ∀ (m k : Nat), callPages (runPages t k m) = (List.range m).map (fun i => k + 1 + i) := by
  intro m
  induction m with
  | zero => intro k; rfl
  | succ m ih =>
    intro k
    rw [runPages, callPages, callPages_append, callPages_sleepEvents, callPages,
      ih (k + 1), List.range_succ_eq_map m, List.map_cons, List.map_map]
    simp only [List.nil_append]
    refine congrArg₂ _ rfl ?_
    exact List.map_congr_left (fun i _ => by simp [Function.comp]; omega)

theorem yieldBodies_runPages (t : Nat → Response) :
    ∀ (m k : Nat), yieldBodies (runPages t k m) =
      (List.range m).map (fun i => (t (k + i)).text) := by
  intro m
  induction m with
  | zero => intro k; rfl
  | succ m ih =>
    intro k
    rw [runPages, yieldBodies, yieldBodies_append, yieldBodies_sleepEvents, yieldBodies,
      ih (k + 1), List.range_succ_eq_map m, List.map_cons, List.map_map]
    simp only [List.nil_append]
    refine congrArg₂ _ ?_ ?_
    · simp
    · exact List.map_congr_left (fun i _ => by
        simp only [Function.comp]
        have hidx : k + 1 + i = k + (i + 1) := by omega
        rw [hidx])

theorem callPages_trace (t : Nat → Response) (M : Nat) :
    callPages (Event.call 1 :: runPages t 1 M) =
      (List.range (M + 1)).map (fun i => i + 1) := by
  rw [callPages, callPages_runPages t M 1, List.range_succ_eq_map M, List.map_cons,
    List.map_map]
  refine congrArg₂ _ rfl ?_
  exact List.map_congr_left (fun i _ => by simp [Function.comp]; omega)

theorem yieldBodies_trace (t : Nat → Response) (M : Nat) :
    yieldBodies (Event.call 1 :: runPages t 1 M) =
      (List.range M).map (fun i => (t (i + 1)).text) := by
  rw [yieldBodies, yieldBodies_runPages t M 1]
  exact List.map_congr_left (fun i _ => by rw [Nat.add_comm])

theorem questionsLoop_run (t : Nat → Response) :
    ∀ (m k fuel : Nat), m + 1 ≤ fuel →
    (∀ j, k ≤ j → j ≤ k + m → (t j).text ≠ "") →
    (∀ j, k ≤ j → j < k + m → (t j).has_more = true) →
    (t (k + m)).has_more = false →
    questionsLoop t fuel k (t k).text (t k) =
      runPages t k m ++ [Event.yieldPage (t (k + m)).text] := by
  intro m
  induction m with
  | zero =>
    intro k fuel hfuel htext hmore hlast
    obtain ⟨f, rfl⟩ : ∃ f, fuel = f + 1 := ⟨fuel - 1, by omega⟩
    have ht : (t k).text ≠ "" := htext k le_rfl (by omega)
    have hm : (t k).has_more = false := by simpa using hlast
    simp [questionsLoop, ht, hm, runPages]
  | succ m ih =>
    intro k fuel hfuel htext hmore hlast
    obtain ⟨f, rfl⟩ : ∃ f, fuel = f + 1 := ⟨fuel - 1, by omega⟩
    have ht : (t k).text ≠ "" := htext k le_rfl (by omega)
    have hm : (t k).has_more = true := hmore k le_rfl (by omega)
    have hidx : k + 1 + m = k + (m + 1) := by omega
    have ihres := ih (k + 1) f (by omega)
      (fun j hj1 hj2 => htext j (by omega) (by omega))
      (fun j hj1 hj2 => hmore j (by omega) (by omega))
      (by rw [hidx]; exact hlast)
    rw [hidx] at ihres
    simp [questionsLoop, ht, hm, runPages, ihres]

theorem questionsLoop_empty_stop (t : Nat → Response) :
    ∀ (m k fuel : Nat), m + 1 ≤ fuel →
    (∀ j, k ≤ j → j < k + m → (t j).text ≠ "" ∧ (t j).has_more = true) →
    (t (k + m)).text = "" →
    questionsLoop t fuel k (t k).text (t k) = runPages t k m := by
  intro m
  induction m with
  | zero =>
    intro k fuel hfuel hprev hempty
    obtain ⟨f, rfl⟩ : ∃ f, fuel = f + 1 := ⟨fuel - 1, by omega⟩
    have he : (t k).text = "" := by simpa using hempty
    simp [questionsLoop, he, runPages]
  | succ m ih =>
    intro k fuel hfuel hprev hempty
    obtain ⟨f, rfl⟩ : ∃ f, fuel = f + 1 := ⟨fuel - 1, by omega⟩
    have ht : (t k).text ≠ "" := (hprev k le_rfl (by omega)).1
    have hm : (t k).has_more = true := (hprev k le_rfl (by omega)).2
    have hidx : k + 1 + m = k + (m + 1) := by omega
    have ihres := ih (k + 1) f (by omega)
      (fun j hj1 hj2 => hprev j (by omega) (by omega))
      (by rw [hidx]; exact hempty)
    simp [questionsLoop, ht, hm, runPages, ihres]

theorem runPages_decomp (t : Nat → Response) :
    ∀ (i m k : Nat), i < m →
    ∃ pre post, runPages t k m =
      pre ++ (Event.yieldPage (t (k + i)).text ::
        (sleepEvents (t (k + i)).backoff ++ (Event.call (k + i + 1) :: post))) := by
  intro i
  induction i with
  | zero =>
    intro m k him
    obtain ⟨m', rfl⟩ : ∃ m', m = m' + 1 := ⟨m - 1, by omega⟩
    exact ⟨[], runPages t (k + 1) m', by simp [runPages]⟩
  | succ i ih =>
    intro m k him
    obtain ⟨m', rfl⟩ : ∃ m', m = m' + 1 := ⟨m - 1, by omega⟩
    obtain ⟨pre, post, hdec⟩ := ih m' (k + 1) (by omega)
    have hidx : k + 1 + i = k + (i + 1) := by omega
    rw [hidx] at hdec
    refine ⟨Event.yieldPage (t k).text ::
      (sleepEvents (t k).backoff ++ (Event.call (k + 1) :: pre)), post, ?_⟩
    simp [runPages, hdec, List.append_assoc]

/-- C2: for every N ≥ 1 and every transport whose pages 1..N have non-empty
bodies, with `has_more` true on pages 1..N-1 and false on page N,
`get_questions` makes exactly N transport calls whose page parameters are
1, 2, …, N in order (strictly increasing by 1, never repeated or skipped),
and yields exactly the N raw response bodies in page order; the trace equality
(first conjunct) shows each body is yielded before the `has_more` decision and
the call for the next page.  The last conjunct ties the page parameter of a
call to the `page` entry of the payload handed to the transport. -/
theorem get_questions_pagination (t : Nat → Response) (N fuel : Nat)
    (hN : 1 ≤ N) (hfuel : N ≤ fuel)
    (htext : ∀ k, 1 ≤ k → k ≤ N → (t k).text ≠ "")
    (hmore : ∀ k, 1 ≤ k → k < N → (t k).has_more = true)
    (hlast : (t N).has_more = false) :
    get_questions t fuel =
      Event.call 1 :: (runPages t 1 (N - 1) ++ [Event.yieldPage (t N).text]) ∧
    callPages (get_questions t fuel) = (List.range N).map (fun i => i + 1) ∧
    yieldBodies (get_questions t fuel) =
      (List.range N).map (fun i => (t (i + 1)).text) ∧
    (∀ c page fd, dlookup PPAGE (build_payload c page fd) = some (PVal.pvInt page)) := by
  obtain ⟨M, rfl⟩ : ∃ M, N = M + 1 := ⟨N - 1, by omega⟩
  have hidx : 1 + M = M + 1 := by omega
  have hloop := questionsLoop_run t M 1 fuel (by omega)
    (fun j hj1 hj2 => htext j hj1 (by omega))
    (fun j hj1 hj2 => hmore j hj1 (by omega))
    (by rw [hidx]; exact hlast)
  rw [hidx] at hloop
  have htr : get_questions t fuel =
      Event.call 1 :: (runPages t 1 (M + 1 - 1) ++ [Event.yieldPage (t (M + 1)).text]) := by
    rw [get_questions, hloop, Nat.add_sub_cancel]
  refine ⟨htr, ?_, ?_, fun c page fd => dlookup_page_build_payload c page fd⟩
  · have hsh : callPages
        (Event.call 1 :: (runPages t 1 M ++ [Event.yieldPage (t (M + 1)).text])) =
        callPages (Event.call 1 :: runPages t 1 M) := by
      rw [callPages, callPages_append]
      simp [callPages]
    rw [htr, Nat.add_sub_cancel, hsh]
    exact callPages_trace t M
  · rw [htr, Nat.add_sub_cancel, yieldBodies, yieldBodies_append,
      yieldBodies_runPages t M 1, List.range_succ M, List.map_append]
    refine congrArg₂ _ ?_ rfl
    exact List.map_congr_left (fun i _ => by rw [Nat.add_comm])

/-- C2 witness: a concrete two-page transport (`has_more` only on page 1)
produces exactly two calls with pages 1, 2 and yields the two bodies in
order. -/
theorem get_questions_pagination_witness :
    get_questions twoPages 2 =
      Event.call 1 ::
        (runPages twoPages 1 (2 - 1) ++ [Event.yieldPage (twoPages 2).text]) ∧
    callPages (get_questions twoPages 2) = (List.range 2).map (fun i => i + 1) ∧
    yieldBodies (get_questions twoPages 2) =
      (List.range 2).map (fun i => (twoPages (i + 1)).text) ∧
    (∀ c page fd, dlookup PPAGE (build_payload c page fd) = some (PVal.pvInt page)) :=
  get_questions_pagination twoPages 2 2 (by decide) (by decide)
    (by intro k h1 h2; interval_cases k
        all_goals decide)
    (by intro k h1 h2; interval_cases k
        all_goals decide)
    (by decide)

/-- C4: with the hypotheses of C2, between yielding page k and issuing the
transport call for page k+1 the trace contains exactly the sleep mandated by
page k's envelope: when the envelope supplies a non-zero backoff b, a single
sleep of b seconds separates them; when it supplies no backoff, no sleep
separates them and the call follows the yield immediately; in all cases the
slept duration equals the supplied backoff (0 when absent — a supplied backoff
of 0 is falsy in the walrus guard, so the suspension lasts 0 seconds). -/
theorem get_questions_backoff (t : Nat → Response) (N fuel : Nat)
    (hN : 1 ≤ N) (hfuel : N ≤ fuel)
    (htext : ∀ k, 1 ≤ k → k ≤ N → (t k).text ≠ "")
    (hmore : ∀ k, 1 ≤ k → k < N → (t k).has_more = true)
    (hlast : (t N).has_more = false) (k : Nat) (hk1 : 1 ≤ k) (hkN : k < N) :
    (∃ pre post, get_questions t fuel =
      pre ++ (Event.yieldPage (t k).text ::
        (sleepEvents (t k).backoff ++ (Event.call (k + 1) :: post)))) ∧
    sleepTotal (sleepEvents (t k).backoff) = ((t k).backoff).getD 0 ∧
    ((t k).backoff = none → sleepEvents (t k).backoff = []) ∧
    (∀ b : ℚ, (t k).backoff = some b → b ≠ 0 →
      sleepEvents (t k).backoff = [Event.sleep b]) := by
  obtain ⟨M, rfl⟩ : ∃ M, N = M + 1 := ⟨N - 1, by omega⟩
  refine ⟨?_, ?_, ?_, ?_⟩
  · have hidx : 1 + M = M + 1 := by omega
    have hloop := questionsLoop_run t M 1 fuel (by omega)
      (fun j hj1 hj2 => htext j hj1 (by omega))
      (fun j hj1 hj2 => hmore j hj1 (by omega))
      (by rw [hidx]; exact hlast)
    rw [hidx] at hloop
    obtain ⟨pre, post, hdec⟩ := runPages_decomp t (k - 1) M 1 (by omega)
    have hk : 1 + (k - 1) = k := by omega
    rw [hk] at hdec
    refine ⟨Event.call 1 :: pre, post ++ [Event.yieldPage (t (M + 1)).text], ?_⟩
    rw [get_questions, hloop, hdec]
    simp [List.append_assoc]
  · rcases hb : (t k).backoff with _ | q
    · simp [hb, sleepEvents, sleepTotal]
    · by_cases hq : q = 0 <;> simp [hb, hq, sleepEvents, sleepTotal]
  · intro h
    simp [h, sleepEvents]
  · intro b hb hbne
    simp [sleepEvents, hb, hbne]

/-- C4 witness: on the two-page transport, page 1 supplies backoff 2, and a
single 2-second sleep separates its yield from the call for page 2. -/
theorem get_questions_backoff_witness :
    (∃ pre post, get_questions twoPages 2 =
      pre ++ (Event.yieldPage (twoPages 1).text ::
        (sleepEvents (twoPages 1).backoff ++ (Event.call (1 + 1) :: post)))) ∧
    sleepTotal (sleepEvents (twoPages 1).backoff) = ((twoPages 1).backoff).getD 0 ∧
    ((twoPages 1).backoff = none → sleepEvents (twoPages 1).backoff = []) ∧
    (∀ b : ℚ, (twoPages 1).backoff = some b → b ≠ 0 →
      sleepEvents (twoPages 1).backoff = [Event.sleep b]) :=
  get_questions_backoff twoPages 2 2 (by decide) (by decide)
    (by intro k h1 h2; interval_cases k
        all_goals decide)
    (by intro k h1 h2; interval_cases k
        all_goals decide)
    (by decide) 1 (by decide) (by decide)

/-- C10: if a response's raw text body is empty, `get_questions` terminates
the sequence there without yielding that page, regardless of the envelope's
`has_more` value: with pages 1..N-1 non-empty and continuing and page N's body
empty, the trace is exactly the N-1 full pages followed by the call for page N
and nothing else — N calls but only N-1 yields; for N = 1 the sequence is
empty although one transport call was made. -/
theorem get_questions_empty_body (t : Nat → Response) (N fuel : Nat)
    (hN : 1 ≤ N) (hfuel : N ≤ fuel)
    (hprev : ∀ k, 1 ≤ k → k < N → (t k).text ≠ "" ∧ (t k).has_more = true)
    (hempty : (t N).text = "") :
    get_questions t fuel = Event.call 1 :: runPages t 1 (N - 1) ∧
    callPages (get_questions t fuel) = (List.range N).map (fun i => i + 1) ∧
    yieldBodies (get_questions t fuel) =
      (List.range (N - 1)).map (fun i => (t (i + 1)).text) ∧
    (N = 1 → get_questions t fuel = [Event.call 1]) := by
  obtain ⟨M, rfl⟩ : ∃ M, N = M + 1 := ⟨N - 1, by omega⟩
  have hidx : 1 + M = M + 1 := by omega
  have hloop := questionsLoop_empty_stop t M 1 fuel (by omega)
    (fun j hj1 hj2 => hprev j hj1 (by omega))
    (by rw [hidx]; exact hempty)
  have htr : get_questions t fuel = Event.call 1 :: runPages t 1 M := by
    rw [get_questions, hloop]
  refine ⟨by rw [htr, Nat.add_sub_cancel], ?_, ?_, ?_⟩
  · rw [htr]
    exact callPages_trace t M
  · rw [htr, Nat.add_sub_cancel]
    exact yieldBodies_trace t M
  · intro h
    obtain rfl : M = 0 := by omega
    rw [htr]
    rfl

/-- C10 witness: a transport whose second response has an empty body (while
still reporting `has_more = true`) stops after yielding only page 1, with
calls for pages 1 and 2 made. -/
theorem get_questions_empty_body_witness :
    get_questions emptySecondPage 2 =
      Event.call 1 :: runPages emptySecondPage 1 (2 - 1) ∧
    callPages (get_questions emptySecondPage 2) = (List.range 2).map (fun i => i + 1) ∧
    yieldBodies (get_questions emptySecondPage 2) =
      (List.range (2 - 1)).map (fun i => (emptySecondPage (i + 1)).text) ∧
    (2 = 1 → get_questions emptySecondPage 2 = [Event.call 1]) :=
  get_questions_empty_body emptySecondPage 2 2 (by decide) (by decide)
    (by intro k h1 h2; interval_cases k
        all_goals decide)
    (by decide)

end StackExchangeSpec
